import Mathlib

/-!
Verification of the sorena-web-builder plan-to-files code generator,
request validation, request handlers and archive builder.

The definitions below are a shallow embedding of the TypeScript source:
dynamically typed JSON/JS values are modelled by the inductive type
JVal, template-literal interpolation by string concatenation together
with the JS ToString coercion, and code that can raise a runtime
TypeError returns an Except value.
-/

set_option maxHeartbeats 1000000
set_option maxRecDepth 4000

/-- A JavaScript/JSON value as it occurs in the open-ended maps
(section props and style colors) of a site plan. -/
inductive JVal where
| null : JVal
| undefined : JVal
| bool : Bool → JVal
| num : Int → JVal
| str : String → JVal
| arr : List JVal → JVal
| obj : List (String × JVal) → JVal
deriving Repr

/-- JavaScript truthiness of a value. -/
def JVal.truthy : JVal → Bool
| .null => false
| .undefined => false
| .bool b => b
| .num n => n != 0
| .str s => s != ""
| .arr _ => true
| .obj _ => true

/-- JS logical-or on values: the left operand when truthy, otherwise the
right operand, as in the fallback expressions of the generator. -/
def jor (v d : JVal) : JVal :=
if v.truthy then v else d

mutual

/-- JS ToString coercion as applied by template-literal interpolation. -/
def JVal.toDisplay : JVal → String
| .null => "null"
| .undefined => "undefined"
| .bool b => if b then "true" else "false"
| .num n => toString n
| .str s => s
| .arr xs => String.intercalate "," (displayItems xs)
| .obj _ => "[object Object]"

/-- Array elements under Array.prototype.toString: null and undefined
render as the empty string. -/
def displayItems : List JVal → List String
| [] => []
| .null :: rest => "" :: displayItems rest
| .undefined :: rest => "" :: displayItems rest
| v :: rest => v.toDisplay :: displayItems rest

end

/-- A literal left brace, kept out of string literals as an escape. -/
def lbr : String := "\x7b"

/-- A literal right brace, kept out of string literals as an escape. -/
def rbr : String := "\x7d"

/-- Hexadecimal digit for JSON escape sequences. -/
def hexDigit (n : Nat) : Char :=
if n < 10 then Char.ofNat (48 + n) else Char.ofNat (87 + n)

/-- JSON.stringify escaping of a single character. -/
def jsonEscChar (c : Char) : String :=
if c = '"' then "\\\""
else if c = '\\' then "\\\\"
else if c = '\n' then "\\n"
else if c = '\r' then "\\r"
else if c = '\t' then "\\t"
else if c = Char.ofNat 8 then "\\b"
else if c = Char.ofNat 12 then "\\f"
else if c.toNat < 32 then
  String.mk ['\\', 'u', '0', '0', hexDigit (c.toNat / 16), hexDigit (c.toNat % 16)]
else String.singleton c

/-- JSON.stringify quoting of a string. -/
def jsonQuote (s : String) : String :=
"\"" ++ String.join (s.data.map jsonEscChar) ++ "\""

/-- Indentation of a given width, as produced by JSON.stringify with a
numeric gap argument. -/
def pad (n : Nat) : String :=
String.mk (List.replicate n ' ')

mutual

/-- JSON.stringify with no gap (compact form); none models the
undefined result for a top-level undefined value. -/
def jsonC : JVal → Option String
| .undefined => none
| .null => some "null"
| .bool b => some (if b then "true" else "false")
| .num n => some (toString n)
| .str s => some (jsonQuote s)
| .arr [] => some ("[]")
| .arr (x :: xs) => some ("[" ++ String.intercalate "," (jsonCItems (x :: xs)) ++ "]")
| .obj fs =>
  match jsonCFields fs with
  | [] => some (lbr ++ rbr)
  | ps => some (lbr ++ String.intercalate "," ps ++ rbr)

/-- Array elements in compact JSON form; undefined becomes null. -/
def jsonCItems : List JVal → List String
| [] => []
| .undefined :: rest => "null" :: jsonCItems rest
| v :: rest => ((jsonC v).getD "null") :: jsonCItems rest

/-- Object fields in compact JSON form; fields with undefined values
are skipped. -/
def jsonCFields : List (String × JVal) → List String
| [] => []
| (_, .undefined) :: rest => jsonCFields rest
| (k, v) :: rest => (jsonQuote k ++ ":" ++ (jsonC v).getD "null") :: jsonCFields rest

end

mutual

/-- JSON.stringify with a gap of two spaces, as in
JSON.stringify(x, null, 2); the argument is the indentation of the
enclosing container. -/
def jsonP (ind : Nat) : JVal → Option String
| .undefined => none
| .null => some "null"
| .bool b => some (if b then "true" else "false")
| .num n => some (toString n)
| .str s => some (jsonQuote s)
| .arr [] => some "[]"
| .arr (x :: xs) =>
  some ("[\n" ++ String.intercalate ",\n" (jsonPItems (ind + 2) (x :: xs)) ++ "\n" ++ pad ind ++ "]")
| .obj fs =>
  match jsonPFields (ind + 2) fs with
  | [] => some (lbr ++ rbr)
  | ps => some (lbr ++ "\n" ++ String.intercalate ",\n" ps ++ "\n" ++ pad ind ++ rbr)

/-- Array elements in the two-space pretty form. -/
def jsonPItems (ind : Nat) : List JVal → List String
| [] => []
| .undefined :: rest => (pad ind ++ "null") :: jsonPItems ind rest
| v :: rest => (pad ind ++ (jsonP ind v).getD "null") :: jsonPItems ind rest

/-- Object fields in the two-space pretty form; undefined-valued
fields are skipped. -/
def jsonPFields (ind : Nat) : List (String × JVal) → List String
| [] => []
| (_, .undefined) :: rest => jsonPFields ind rest
| (k, v) :: rest => (pad ind ++ jsonQuote k ++ ": " ++ (jsonP ind v).getD "null") :: jsonPFields ind rest

end

/-- JSON.stringify(v, null, 2) as interpolated into a template literal:
a top-level undefined shows as the string undefined. -/
def stringify2 (v : JVal) : String :=
(jsonP 0 v).getD "undefined"

/-- JSON.stringify(v) as interpolated into a template literal. -/
def stringifyC (v : JVal) : String :=
(jsonC v).getD "undefined"

/-- The meta block of a site plan: title, description, language tag. -/
structure PlanMeta where
  title : String
  description : String
  language : String

/-- One image asset of a site plan. -/
structure ImageAsset where
  id : String
  prompt : Option String
  url : Option String

/-- The assets block of a site plan. -/
structure PlanAssets where
  images : List ImageAsset

/-- One section of a site plan: free-form type tag and an open,
untyped props map. -/
structure PlanSection where
  id : String
  type : String
  props : List (String × JVal)

/-- The style block of a site plan: an open color map and an optional
font. -/
structure PlanStyle where
  colors : List (String × String)
  font : Option String

/-- A structurally valid site plan as accepted by SitePlanSchema. -/
structure SitePlan where
  meta : PlanMeta
  assets : PlanAssets
  sections : List PlanSection
  style : PlanStyle

/-- One generated output file. -/
structure GenFile where
  path : String
  content : String
deriving Repr

/-- The generated file list returned by the code generator. -/
structure GeneratedFiles where
  files : List GenFile
deriving Repr

/-- The closed framework enumeration of a build request. -/
inductive Framework where
| vanilla : Framework
| react : Framework
| next : Framework
deriving Repr, DecidableEq

/-- Lookup in an open props map; an absent key reads as undefined. -/
def propGet (props : List (String × JVal)) (k : String) : JVal :=
match props.lookup k with
| some v => v
| none => .undefined

/-- JS property access on an arbitrary value that is known not to be
null or undefined; non-objects have no own properties. -/
def JVal.getProp : JVal → String → JVal
| .obj fs, k => propGet fs k
| _, _ => .undefined

/-- Lookup in the style colors map with the JS falsy-fallback default,
mirroring expressions like colors.text or-else a literal. -/
def colorGet (colors : List (String × String)) (k d : String) : String :=
match colors.lookup k with
| some c => if c == "" then d else c
| none => d

/-- Optional string with the JS falsy-fallback default. -/
def strOr (v : Option String) (d : String) : String :=
match v with
| some s => if s == "" then d else s
| none => d

/-- The dir attribute fragment of the generated html open tags: set to
rtl exactly for the Persian language tag, empty otherwise. -/
def dirAttr (language : String) : String :=
if language == "fa" then "dir=\"rtl\"" else ""

/-- The hero fragment of the plain-markup renderer. -/
def heroHtml (s : PlanSection) : String :=
"\n    <section id=\"" ++ s.id ++ "\" class=\"hero\">\n      <h1>"
  ++ (jor (propGet s.props "title") (.str "Welcome")).toDisplay
  ++ "</h1>\n      <p>"
  ++ (jor (propGet s.props "subtitle") (.str "")).toDisplay
  ++ "</p>\n      "
  ++ (if (propGet s.props "cta").truthy then
        "<button class=\"cta-button\">" ++ (propGet s.props "cta").toDisplay ++ "</button>"
      else "")
  ++ "\n    </section>"

/-- One item of the features grid; reading a property of a null or
undefined item raises a TypeError. -/
def featureItemHtml (item : JVal) : Except String String :=
match item with
| .null => .error "TypeError: Cannot read properties of null (reading title)"
| .undefined => .error "TypeError: Cannot read properties of undefined (reading title)"
| v => .ok ("\n        <div class=\"feature-item\">\n          <h3>"
    ++ (v.getProp "title").toDisplay
    ++ "</h3>\n          <p>"
    ++ (v.getProp "description").toDisplay
    ++ "</p>\n        </div>")

/-- The items of the features grid, joined with the empty separator. -/
def featureItemsHtml : List JVal → Except String String
| [] => .ok ""
| item :: rest => do
  let h ← featureItemHtml item
  let r ← featureItemsHtml rest
  .ok (h ++ r)

/-- The contact fragment of the plain-markup renderer. -/
def contactHtml (s : PlanSection) : String :=
"\n    <section id=\"" ++ s.id ++ "\" class=\"contact\">\n      <h2>"
  ++ (jor (propGet s.props "title") (.str "Contact")).toDisplay
  ++ "</h2>\n      <p>"
  ++ (jor (propGet s.props "email") (.str "")).toDisplay
  ++ "</p>\n      <p>"
  ++ (jor (propGet s.props "phone") (.str "")).toDisplay
  ++ "</p>\n      <p>"
  ++ (jor (propGet s.props "address") (.str "")).toDisplay
  ++ "</p>\n    </section>"

/-- The generic fallback fragment for a section type outside the known
set: the raw props map is dumped as preformatted JSON. -/
def fallbackHtml (s : PlanSection) : String :=
"\n    <section id=\"" ++ s.id ++ "\" class=\"" ++ s.type ++ "\">\n      <pre>"
  ++ stringify2 (.obj s.props)
  ++ "</pre>\n    </section>"

/-- The per-section switch of the plain-markup renderer; the features
branch calls map on the items value and so raises a TypeError when
that value is truthy but not an array. -/
def sectionHtml (s : PlanSection) : Except String String :=
if s.type == "hero" then .ok (heroHtml s)
else if s.type == "features" then
  match jor (propGet s.props "items") (.arr []) with
  | .arr items => do
    let inner ← featureItemsHtml items
    .ok ("\n    <section id=\"" ++ s.id ++ "\" class=\"features\">\n      <h2>"
      ++ (jor (propGet s.props "title") (.str "Features")).toDisplay
      ++ "</h2>\n      <div class=\"features-grid\">\n        "
      ++ inner
      ++ "\n      </div>\n    </section>")
  | _ => .error "TypeError: (section.props.items or-else []).map is not a function"
else if s.type == "contact" then .ok (contactHtml s)
else .ok (fallbackHtml s)

/-- All sections of the plain-markup page, in input order. -/
def sectionsHtml : List PlanSection → Except String (List String)
| [] => .ok []
| s :: rest => do
  let h ← sectionHtml s
  let r ← sectionsHtml rest
  .ok (h :: r)

/-- The fixed part of the plain-markup document before the dir slot. -/
def htmlDocPre (plan : SitePlan) : String :=
"<!DOCTYPE html>\n<html lang=\"" ++ plan.meta.language ++ "\" "

/-- The part of the plain-markup document after the dir slot. -/
def htmlDocPost (plan : SitePlan) (secs : String) : String :=
">\n<head>\n  <meta charset=\"UTF-8\">\n  <meta name=\"viewport\" content=\"width=device-width, initial-scale=1.0\">\n  <title>"
  ++ plan.meta.title
  ++ "</title>\n  <meta name=\"description\" content=\""
  ++ plan.meta.description
  ++ "\">\n  <link rel=\"stylesheet\" href=\"styles.css\">\n</head>\n<body>\n  <main>\n"
  ++ secs
  ++ "\n  </main>\n  <script src=\"main.js\"></script>\n</body>\n</html>"

/-- The plain-markup index.html renderer. -/
def renderHtml (plan : SitePlan) : Except String String := do
  let secs ← sectionsHtml plan.sections
  .ok (htmlDocPre plan ++ dirAttr plan.meta.language ++ htmlDocPost plan (String.intercalate "\n" secs))

/-- The plain-markup styles.css renderer, with the documented default
color literals for absent primary, secondary, background and text
entries. -/
def renderCss (plan : SitePlan) : String :=
"* \x7b\n  margin: 0;\n  padding: 0;\n  box-sizing: border-box;\n\x7d\n\nbody \x7b\n  font-family: "
  ++ strOr plan.style.font "system-ui, -apple-system, sans-serif"
  ++ ";\n  color: "
  ++ colorGet plan.style.colors "text" "#333"
  ++ ";\n  background: "
  ++ colorGet plan.style.colors "background" "#fff"
  ++ ";\n  line-height: 1.6;\n\x7d\n\nmain \x7b\n  max-width: 1200px;\n  margin: 0 auto;\n  padding: 20px;\n\x7d\n\nsection \x7b\n  margin: 40px 0;\n  padding: 20px;\n\x7d\n\n.hero \x7b\n  text-align: center;\n  padding: 60px 20px;\n  background: "
  ++ colorGet plan.style.colors "primary" "#007bff"
  ++ ";\n  color: white;\n  border-radius: 8px;\n\x7d\n\n.hero h1 \x7b\n  font-size: 2.5em;\n  margin-bottom: 20px;\n\x7d\n\n.cta-button \x7b\n  background: white;\n  color: "
  ++ colorGet plan.style.colors "primary" "#007bff"
  ++ ";\n  padding: 12px 30px;\n  border: none;\n  border-radius: 5px;\n  font-size: 1.1em;\n  cursor: pointer;\n  margin-top: 20px;\n\x7d\n\n.features-grid \x7b\n  display: grid;\n  grid-template-columns: repeat(auto-fit, minmax(250px, 1fr));\n  gap: 30px;\n  margin-top: 30px;\n\x7d\n\n.feature-item \x7b\n  padding: 20px;\n  background: "
  ++ colorGet plan.style.colors "secondary" "#f8f9fa"
  ++ ";\n  border-radius: 8px;\n\x7d\n\n.contact \x7b\n  background: "
  ++ colorGet plan.style.colors "secondary" "#f8f9fa"
  ++ ";\n  padding: 40px;\n  border-radius: 8px;\n\x7d"

/-- The plain-markup main.js renderer. -/
def renderJs (plan : SitePlan) : String :=
"// Site initialization\ndocument.addEventListener(\x27DOMContentLoaded\x27, function() \x7b\n  console.log(\x27Site loaded: "
  ++ plan.meta.title
  ++ "\x27);\n  \n  // Add smooth scrolling\n  document.querySelectorAll(\x27a[href^=\"#\"]\x27).forEach(anchor => \x7b\n    anchor.addEventListener(\x27click\x27, function (e) \x7b\n      e.preventDefault();\n      const target = document.querySelector(this.getAttribute(\x27href\x27));\n      if (target) \x7b\n        target.scrollIntoView(\x7b behavior: \x27smooth\x27 \x7d);\n      \x7d\n    \x7d);\n  \x7d);\n\x7d);"

/-- The per-section switch of the component-based renderer: only hero
and features produce a component, every other type (including the
known contact type) yields the empty string and is filtered away. -/
def reactSectionJsx (s : PlanSection) : String :=
if s.type == "hero" then
  "\n  const Hero = () => (\n    <section className=\"hero\">\n      <h1>"
    ++ (jor (propGet s.props "title") (.str "Welcome")).toDisplay
    ++ "</h1>\n      <p>"
    ++ (jor (propGet s.props "subtitle") (.str "")).toDisplay
    ++ "</p>\n      "
    ++ (if (propGet s.props "cta").truthy then
          "<button className=\"cta-button\">" ++ (propGet s.props "cta").toDisplay ++ "</button>"
        else "")
    ++ "\n    </section>\n  );"
else if s.type == "features" then
  "\n  const Features = () => (\n    <section className=\"features\">\n      <h2>"
    ++ (jor (propGet s.props "title") (.str "Features")).toDisplay
    ++ "</h2>\n      <div className=\"features-grid\">\n        "
    ++ stringifyC (jor (propGet s.props "items") (.arr []))
    ++ "\n      </div>\n    </section>\n  );"
else ""

/-- The component-based src/App.jsx renderer; empty fragments are
dropped by the Boolean filter before joining. -/
def renderReactApp (plan : SitePlan) : String :=
"import React from \x27react\x27;\nimport \x27./App.css\x27;\n\nfunction App() \x7b\n  "
  ++ String.intercalate "\n" ((plan.sections.map reactSectionJsx).filter (fun f => f != ""))
  ++ "\n\n  return (\n    <div className=\"App\">\n      <Hero />\n      <Features />\n    </div>\n  );\n\x7d\n\nexport default App;"

/-- One section of the full-framework root page: every section,
whatever its type, is shown with its props as preformatted JSON. -/
def nextSectionJsx (s : PlanSection) : String :=
"\n        <section className=\"mb-12\">\n          <h2 className=\"text-2xl font-semibold mb-4\">"
  ++ (jor (propGet s.props "title") (.str s.type)).toDisplay
  ++ "</h2>\n          <pre className=\"bg-gray-100 p-4 rounded\">"
  ++ stringify2 (.obj s.props)
  ++ "</pre>\n        </section>"

/-- The full-framework app/page.tsx renderer. -/
def renderNextPage (plan : SitePlan) : String :=
"export default function Home() \x7b\n  return (\n    <main className=\"flex min-h-screen flex-col items-center justify-between p-24\">\n      <div className=\"z-10 w-full max-w-5xl items-center justify-between font-mono text-sm\">\n        <h1 className=\"text-4xl font-bold mb-8\">"
  ++ plan.meta.title
  ++ "</h1>\n        <p className=\"text-xl mb-8\">"
  ++ plan.meta.description
  ++ "</p>\n        "
  ++ String.join (plan.sections.map nextSectionJsx)
  ++ "\n      </div>\n    </main>\n  );\n\x7d"

/-- The fixed part of the full-framework layout before the dir slot. -/
def layoutPre (plan : SitePlan) : String :=
"import type \x7b Metadata \x7d from \x27next\x27\nimport \x27./globals.css\x27\n\nexport const metadata: Metadata = \x7b\n  title: \x27"
  ++ plan.meta.title
  ++ "\x27,\n  description: \x27"
  ++ plan.meta.description
  ++ "\x27,\n\x7d\n\nexport default function RootLayout(\x7b\n  children,\n\x7d: \x7b\n  children: React.ReactNode\n\x7d) \x7b\n  return (\n    <html lang=\""
  ++ plan.meta.language
  ++ "\" "

/-- The fixed part of the full-framework layout after the dir slot. -/
def layoutPost : String :=
">\n      <body>\x7bchildren\x7d</body>\n    </html>\n  )\n\x7d"

/-- The full-framework app/layout.tsx renderer. -/
def baseLayout (plan : SitePlan) : String :=
layoutPre plan ++ dirAttr plan.meta.language ++ layoutPost

/-- The fixed content of app/globals.css. -/
def tailwindBase : String :=
"@tailwind base;\n@tailwind components;\n@tailwind utilities;"

/-- The tailwind.config.ts renderer: the style colors map is embedded
as pretty-printed JSON. -/
def tailwindConfig (plan : SitePlan) : String :=
"import type \x7b Config \x7d from \x27tailwindcss\x27\n\nconst config: Config = \x7b\n  content: [\n    \x27./pages/**/*.\x7bjs,ts,jsx,tsx,mdx\x7d\x27,\n    \x27./components/**/*.\x7bjs,ts,jsx,tsx,mdx\x7d\x27,\n    \x27./app/**/*.\x7bjs,ts,jsx,tsx,mdx\x7d\x27,\n  ],\n  theme: \x7b\n    extend: \x7b\n      colors: "
  ++ stringify2 (.obj (plan.style.colors.map (fun kv => (kv.1, JVal.str kv.2))))
  ++ "\n    \x7d,\n  \x7d,\n  plugins: [],\n\x7d\nexport default config"

/-- The dependency manifest; its content depends only on the flavor
string passed by the generator. -/
def basicPkgJson (framework : String) : String :=
stringify2 (.obj
  [("name", .str "generated-site"),
   ("version", .str "1.0.0"),
   ("private", .bool true),
   ("scripts", .obj
     (if framework == "react" then
       [("start", .str "react-scripts start"),
        ("build", .str "react-scripts build"),
        ("test", .str "react-scripts test"),
        ("eject", .str "react-scripts eject")]
      else
       [("dev", .str "next dev"),
        ("build", .str "next build"),
        ("start", .str "next start"),
        ("lint", .str "next lint")])),
   ("dependencies", .obj
     (if framework == "react" then
       [("react", .str "^18.0.0"),
        ("react-dom", .str "^18.0.0"),
        ("react-scripts", .str "5.0.1")]
      else
       [("next", .str "^14.0.0"),
        ("react", .str "^18.0.0"),
        ("react-dom", .str "^18.0.0")]))])

/-- The fixed content of the component-based src/main.jsx. -/
def reactMainJsx : String :=
"import React from \x27react\x27;\nimport \x7b createRoot \x7d from \x27react-dom/client\x27;\nimport App from \x27./App\x27;\ncreateRoot(document.getElementById(\x27root\x27)).render(<App/>);"

/-- The fixed opening of the component-based public/index.html, up to
the language slot. -/
def reactIndexPre : String :=
"<!DOCTYPE html>\n<html lang=\""

/-- The fixed middle of the component-based public/index.html, between
the language and title slots. -/
def reactIndexMid : String :=
"\">\n<head>\n  <meta charset=\"utf-8\" />\n  <meta name=\"viewport\" content=\"width=device-width, initial-scale=1\" />\n  <title>"

/-- The fixed tail of the component-based public/index.html after the
title slot. -/
def reactIndexPost : String :=
"</title>\n</head>\n<body>\n  <div id=\"root\"></div>\n</body>\n</html>"

/-- The component-based public/index.html: language and title are the
only interpolated values and no dir attribute slot exists. -/
def reactIndexHtml (plan : SitePlan) : String :=
reactIndexPre ++ plan.meta.language ++ reactIndexMid ++ plan.meta.title ++ reactIndexPost

/-- The plan-to-files code generator, one fixed ordered file set per
flavor; the plain-markup branch propagates a TypeError raised while
rendering the page. -/
def buildFilesFromPlan (plan : SitePlan) (framework : Framework) : Except String GeneratedFiles :=
match framework with
| .vanilla => do
  let html ← renderHtml plan
  .ok ⟨[⟨"index.html", html⟩,
        ⟨"styles.css", renderCss plan⟩,
        ⟨"main.js", renderJs plan⟩]⟩
| .react =>
  .ok ⟨[⟨"package.json", basicPkgJson "react"⟩,
        ⟨"src/App.jsx", renderReactApp plan⟩,
        ⟨"src/main.jsx", reactMainJsx⟩,
        ⟨"public/index.html", reactIndexHtml plan⟩,
        ⟨"src/App.css", renderCss plan⟩]⟩
| .next =>
  .ok ⟨[⟨"package.json", basicPkgJson "next"⟩,
        ⟨"app/page.tsx", renderNextPage plan⟩,
        ⟨"app/layout.tsx", baseLayout plan⟩,
        ⟨"app/globals.css", tailwindBase⟩,
        ⟨"tailwind.config.ts", tailwindConfig plan⟩]⟩

/-- The closed section enumeration of a build request. -/
inductive SectionKind where
| hero | features | menu | gallery | pricing | contact | faq
deriving Repr, DecidableEq

/-- The closed language enumeration of a build request. -/
inductive Lang where
| fa | en
deriving Repr, DecidableEq

/-- The closed brand tone enumeration of a build request. -/
inductive Tone where
| formal | casual | playful
deriving Repr, DecidableEq

/-- The theme block of a build request. -/
structure Theme where
  primary : String
  secondary : Option String
  font : Option String
  dark : Option Bool
deriving Repr, DecidableEq

/-- The optional brand block of a build request. -/
structure Brand where
  name : Option String
  tone : Option Tone
deriving Repr, DecidableEq

/-- A build request as produced by a successful parse against
BuildRequestSchema. -/
structure BuildRequest where
  intent : String
  framework : Framework
  theme : Theme
  sections : List SectionKind
  language : Lang
  brand : Option Brand
deriving Repr, DecidableEq

/-- One validation issue, with the path of the violated field. -/
structure ZIssue where
  path : List String
  code : String
  message : String
deriving Repr, DecidableEq

/-- The issue list carried by a failed parse; empty for a success. -/
def errsOf {α : Type} : Except (List ZIssue) α → List ZIssue
| .error e => e
| .ok _ => []

/-- Two subparses combined the way an object schema combines its
fields: both must succeed, and the issues of both are reported. -/
def zPair {α β : Type} (a : Except (List ZIssue) α) (b : Except (List ZIssue) β) :
    Except (List ZIssue) (α × β) :=
match a, b with
| .ok x, .ok y => .ok (x, y)
| _, _ => .error (errsOf a ++ errsOf b)

/-- Parse of the intent field: a string of 3 to 2000 characters, with
the custom too-short message from the schema. -/
def parseIntent (v : JVal) : Except (List ZIssue) String :=
match v with
| .str s =>
  if s.length < 3 then
    .error [⟨["intent"], "too_small", "Prompt must be at least 3 characters"⟩]
  else if 2000 < s.length then
    .error [⟨["intent"], "too_big", "String must contain at most 2000 character(s)"⟩]
  else .ok s
| .undefined => .error [⟨["intent"], "invalid_type", "Required"⟩]
| _ => .error [⟨["intent"], "invalid_type", "Expected string"⟩]

/-- Parse of the framework enumeration. -/
def parseFramework (v : JVal) : Except (List ZIssue) Framework :=
match v with
| .str s =>
  if s == "vanilla" then .ok .vanilla
  else if s == "react" then .ok .react
  else if s == "next" then .ok .next
  else .error [⟨["framework"], "invalid_enum_value", "Invalid enum value"⟩]
| .undefined => .error [⟨["framework"], "invalid_type", "Required"⟩]
| _ => .error [⟨["framework"], "invalid_type", "Expected string"⟩]

/-- Parse of an optional string field at the given path. -/
def parseOptStr (path : List String) (v : JVal) : Except (List ZIssue) (Option String) :=
match v with
| .undefined => .ok none
| .str s => .ok (some s)
| _ => .error [⟨path, "invalid_type", "Expected string"⟩]

/-- Parse of an optional boolean field at the given path. -/
def parseOptBool (path : List String) (v : JVal) : Except (List ZIssue) (Option Bool) :=
match v with
| .undefined => .ok none
| .bool b => .ok (some b)
| _ => .error [⟨path, "invalid_type", "Expected boolean"⟩]

/-- Parse of the required theme.primary string. -/
def parsePrimary (v : JVal) : Except (List ZIssue) String :=
match v with
| .str s => .ok s
| .undefined => .error [⟨["theme", "primary"], "invalid_type", "Required"⟩]
| _ => .error [⟨["theme", "primary"], "invalid_type", "Expected string"⟩]

/-- Parse of the theme object. -/
def parseTheme (v : JVal) : Except (List ZIssue) Theme :=
match v with
| .obj fs =>
  match zPair (parsePrimary (propGet fs "primary"))
        (zPair (parseOptStr ["theme", "secondary"] (propGet fs "secondary"))
          (zPair (parseOptStr ["theme", "font"] (propGet fs "font"))
            (parseOptBool ["theme", "dark"] (propGet fs "dark")))) with
  | .ok (p, s, f, d) => .ok ⟨p, s, f, d⟩
  | .error es => .error es
| .undefined => .error [⟨["theme"], "invalid_type", "Required"⟩]
| _ => .error [⟨["theme"], "invalid_type", "Expected object"⟩]

/-- Parse of one element of the sections array. -/
def parseSectionKind (i : Nat) (v : JVal) : Except (List ZIssue) SectionKind :=
match v with
| .str s =>
  if s == "hero" then .ok .hero
  else if s == "features" then .ok .features
  else if s == "menu" then .ok .menu
  else if s == "gallery" then .ok .gallery
  else if s == "pricing" then .ok .pricing
  else if s == "contact" then .ok .contact
  else if s == "faq" then .ok .faq
  else .error [⟨["sections", toString i], "invalid_enum_value", "Invalid enum value"⟩]
| _ => .error [⟨["sections", toString i], "invalid_type", "Expected string"⟩]

/-- Parse of all elements of the sections array, issues collected
across every element. -/
def parseSectionList (i : Nat) : List JVal → Except (List ZIssue) (List SectionKind)
| [] => .ok []
| v :: rest =>
  match zPair (parseSectionKind i v) (parseSectionList (i + 1) rest) with
  | .ok (k, ks) => .ok (k :: ks)
  | .error es => .error es

/-- Parse of the sections field: an array of section kinds with at
least one element. -/
def parseSections (v : JVal) : Except (List ZIssue) (List SectionKind) :=
match v with
| .arr xs =>
  match (if xs.length < 1 then
          [(⟨["sections"], "too_small", "Array must contain at least 1 element(s)"⟩ : ZIssue)]
         else []), parseSectionList 0 xs with
  | [], .ok ks => .ok ks
  | mi, r => .error (mi ++ errsOf r)
| .undefined => .error [⟨["sections"], "invalid_type", "Required"⟩]
| _ => .error [⟨["sections"], "invalid_type", "Expected array"⟩]

/-- Parse of the language enumeration. -/
def parseLanguage (v : JVal) : Except (List ZIssue) Lang :=
match v with
| .str s =>
  if s == "fa" then .ok .fa
  else if s == "en" then .ok .en
  else .error [⟨["language"], "invalid_enum_value", "Invalid enum value"⟩]
| .undefined => .error [⟨["language"], "invalid_type", "Required"⟩]
| _ => .error [⟨["language"], "invalid_type", "Expected string"⟩]

/-- Parse of the optional brand tone enumeration. -/
def parseTone (v : JVal) : Except (List ZIssue) (Option Tone) :=
match v with
| .undefined => .ok none
| .str s =>
  if s == "formal" then .ok (some .formal)
  else if s == "casual" then .ok (some .casual)
  else if s == "playful" then .ok (some .playful)
  else .error [⟨["brand", "tone"], "invalid_enum_value", "Invalid enum value"⟩]
| _ => .error [⟨["brand", "tone"], "invalid_type", "Expected string"⟩]

/-- Parse of the optional brand object. -/
def parseBrand (v : JVal) : Except (List ZIssue) (Option Brand) :=
match v with
| .undefined => .ok none
| .obj fs =>
  match zPair (parseOptStr ["brand", "name"] (propGet fs "name"))
        (parseTone (propGet fs "tone")) with
  | .ok (n, t) => .ok (some ⟨n, t⟩)
  | .error es => .error es
| _ => .error [⟨["brand"], "invalid_type", "Expected object"⟩]

/-- The embedded BuildRequestSchema parse: every field is validated
and the issues of all violated fields are reported together. -/
def parseBuildRequest (v : JVal) : Except (List ZIssue) BuildRequest :=
match v with
| .obj fs =>
  match parseIntent (propGet fs "intent"),
        parseFramework (propGet fs "framework"),
        parseTheme (propGet fs "theme"),
        parseSections (propGet fs "sections"),
        parseLanguage (propGet fs "language"),
        parseBrand (propGet fs "brand") with
  | .ok i, .ok f, .ok t, .ok s, .ok l, .ok b => .ok ⟨i, f, t, s, l, b⟩
  | ri, rf, rt, rs, rl, rb =>
    .error (errsOf ri ++ errsOf rf ++ errsOf rt ++ errsOf rs ++ errsOf rl ++ errsOf rb)
| _ => .error [⟨[], "invalid_type", "Expected object"⟩]

/-- The response of the generate request handler: a success carries
both plan and files; a validation failure carries the issue list with
status 400; every other failure carries the raised message with
status 500. -/
inductive ApiResponse where
| ok : SitePlan → GeneratedFiles → ApiResponse
| badRequest : List ZIssue → ApiResponse
| serverError : String → ApiResponse

/-- The HTTP status of a handler response. -/
def ApiResponse.status : ApiResponse → Nat
| .ok _ _ => 200
| .badRequest _ => 400
| .serverError _ => 500

/-- The generate request handler: parse the body, validate it against
BuildRequestSchema, call the AI client, run the generator; a ZodError
becomes a 400 carrying every issue, any other raised error becomes a
500 carrying its message. -/
def handlePOST (body : Except String JVal) (ai : BuildRequest → Except String SitePlan) :
    ApiResponse :=
match body with
| .error e => .serverError e
| .ok raw =>
  match parseBuildRequest raw with
  | .error issues => .badRequest issues
  | .ok breq =>
    match ai breq with
    | .error msg => .serverError msg
    | .ok plan =>
      match buildFilesFromPlan plan breq.framework with
      | .error msg => .serverError msg
      | .ok files => .ok plan files

/-- An optional string field of the canonical JSON form of a build
request: present exactly when the option is set. -/
def optEntryS (k : String) : Option String → List (String × JVal)
| none => []
| some s => [(k, .str s)]

/-- An optional boolean field of the canonical JSON form. -/
def optEntryB (k : String) : Option Bool → List (String × JVal)
| none => []
| some b => [(k, .bool b)]

/-- The string tag of a framework value. -/
def frameworkStr : Framework → String
| .vanilla => "vanilla"
| .react => "react"
| .next => "next"

/-- The string tag of a section kind. -/
def sectionKindStr : SectionKind → String
| .hero => "hero"
| .features => "features"
| .menu => "menu"
| .gallery => "gallery"
| .pricing => "pricing"
| .contact => "contact"
| .faq => "faq"

/-- The string tag of a language value. -/
def langStr : Lang → String
| .fa => "fa"
| .en => "en"

/-- The string tag of a brand tone. -/
def toneStr : Tone → String
| .formal => "formal"
| .casual => "casual"
| .playful => "playful"

/-- The canonical JSON form of a theme block. -/
def themeJson (t : Theme) : JVal :=
.obj (("primary", .str t.primary) ::
  (optEntryS "secondary" t.secondary ++
    (optEntryS "font" t.font ++ optEntryB "dark" t.dark)))

/-- The canonical JSON form of a brand block. -/
def brandJson (b : Brand) : JVal :=
.obj (optEntryS "name" b.name ++
  (match b.tone with
   | none => []
   | some t => [("tone", .str (toneStr t))]))

/-- The canonical JSON form of a build request: exactly the fields of
the schema, optional fields present exactly when set. -/
def buildRequestJson (r : BuildRequest) : JVal :=
.obj ([("intent", .str r.intent),
       ("framework", .str (frameworkStr r.framework)),
       ("theme", themeJson r.theme),
       ("sections", .arr (r.sections.map (fun k => .str (sectionKindStr k)))),
       ("language", .str (langStr r.language))] ++
      (match r.brand with
       | none => []
       | some b => [("brand", brandJson b)]))

/-- Modelled from the spec: the third-party archive library (JSZip) is
not part of this repository; per the spec the archive builder packs
one entry per file into a single binary buffer, using the given
relative paths verbatim as entry names. An archive is its ordered
entry list. -/
structure ZipArchive where
  entries : List (String × String)

/-- Modelled from the spec: adding a file to the archive appends one
entry whose name is the given path, verbatim. -/
def ZipArchive.file (z : ZipArchive) (path content : String) : ZipArchive :=
⟨z.entries ++ [(path, content)]⟩

/-- A string laid out into the buffer: a character-count prefix
followed by the code points. -/
def encodeStr (s : String) : List Nat :=
s.data.length :: s.data.map Char.toNat

/-- Read one length-prefixed string back from the buffer. -/
def decodeStr : List Nat → Option (String × List Nat)
| [] => none
| n :: rest =>
  if n ≤ rest.length then
    some (String.mk ((rest.take n).map Char.ofNat), rest.drop n)
  else none

/-- Modelled from the spec: the archive entries serialized into one
flat buffer, path then content per entry. -/
def encodeEntries : List (String × String) → List Nat
| [] => []
| (p, c) :: rest => encodeStr p ++ (encodeStr c ++ encodeEntries rest)

/-- Read back the given number of entries from the buffer. -/
def decodeEntries : Nat → List Nat → Option (List (String × String))
| 0, _ => some []
| n + 1, buf => do
  let (p, buf1) ← decodeStr buf
  let (c, buf2) ← decodeStr buf1
  let rest ← decodeEntries n buf2
  some ((p, c) :: rest)

/-- Modelled from the spec: zipFiles packs the file list into a single
buffer, one entry per file, paths verbatim as entry names. -/
def zipFiles (files : List GenFile) : List Nat :=
let z : ZipArchive := files.foldl (fun z f => z.file f.path f.content) ⟨[]⟩
z.entries.length :: encodeEntries z.entries

/-- Modelled from the spec: decompression of an archive buffer back
into its named entries. -/
def unzipBuffer : List Nat → Option (List (String × String))
| [] => none
| n :: rest => decodeEntries n rest

/-- One feature item that the plain-markup renderer can read without a
TypeError: anything but null or undefined. -/
def itemSafe : JVal → Bool
| .null => false
| .undefined => false
| _ => true

/-- A section that the plain-markup renderer is defined on: a features
section must carry an items value that is either falsy or an array of
non-null items; every other section always renders. -/
def sectionSafe (s : PlanSection) : Bool :=
if s.type == "features" then
  match jor (propGet s.props "items") (.arr []) with
  | .arr items => items.all itemSafe
  | _ => false
else true

/-- Whether the first character list starts the second. -/
def leadsWith : List Char → List Char → Bool
| [], _ => true
| _ :: _, [] => false
| a :: as, b :: bs => a == b && leadsWith as bs

/-- Whether the pattern occurs anywhere in the character list. -/
def hasSubChars (pat : List Char) : List Char → Bool
| [] => leadsWith pat []
| c :: rest => leadsWith pat (c :: rest) || hasSubChars pat rest

/-- Whether the pattern string occurs anywhere in the second string. -/
def hasSub (pat s : String) : Bool :=
hasSubChars pat.data s.data

/-- A concrete plan with a single section of the unknown type pricing
and an empty colors map. -/
def planDrop : SitePlan :=
⟨⟨"T", "D", "en"⟩, ⟨[]⟩, [⟨"s1", "pricing", [("offer", .str "gold")]⟩], ⟨[], none⟩⟩

/-- A concrete plan with a features section whose items prop is the
truthy non-array value 5. -/
def planBadItems : SitePlan :=
⟨⟨"T", "D", "en"⟩, ⟨[]⟩, [⟨"f1", "features", [("items", .num 5)]⟩], ⟨[], none⟩⟩

/-- A concrete plan with a features section whose items prop is the
truthy non-array string x, and an empty colors map. -/
def planBadItems2 : SitePlan :=
⟨⟨"T2", "D2", "en"⟩, ⟨[]⟩, [⟨"f2", "features", [("items", .str "x")]⟩], ⟨[], none⟩⟩

/-- The fixed ordered file path set of each flavor, as stated by the
spec. -/
def flavorPaths : Framework → List String
| .vanilla => ["index.html", "styles.css", "main.js"]
| .react => ["package.json", "src/App.jsx", "src/main.jsx", "public/index.html", "src/App.css"]
| .next => ["package.json", "app/page.tsx", "app/layout.tsx", "app/globals.css", "tailwind.config.ts"]

/-- The canonical JSON body of Scenario A's valid build request. -/
def reqGoodJson : JVal :=
.obj [("intent", .str "A bakery site"), ("framework", .str "vanilla"),
      ("theme", .obj [("primary", .str "#000000")]), ("sections", .arr [.str "hero"]),
      ("language", .str "en")]

/-- The parsed value of Scenario A's valid build request. -/
def reqGood : BuildRequest :=
⟨"A bakery site", .vanilla, ⟨"#000000", none, none, none⟩, [.hero], .en, none⟩

/-- A concrete plan in the Persian locale with no sections. -/
def planFa : SitePlan :=
⟨⟨"T", "D", "fa"⟩, ⟨[]⟩, [], ⟨[], none⟩⟩

theorem charOfNatToNat (c : Char) : Char.ofNat c.toNat = c := by
  unfold Char.ofNat
  have hv : c.toNat.isValidChar := c.valid
  rw [dif_pos hv]
  apply Char.eq_of_val_eq
  apply UInt32.ext
  simp [Char.ofNatAux, Char.toNat, UInt32.toNat]

theorem decodeStr_encodeStr (s : String) (r : List Nat) :
    decodeStr (encodeStr s ++ r) = some (s, r) := by
  have hlen : (s.data.map Char.toNat).length = s.data.length := List.length_map _ _
  simp only [encodeStr, List.cons_append, decodeStr]
  rw [if_pos]
  · have ht : (s.data.map Char.toNat ++ r).take s.data.length = s.data.map Char.toNat := by
      rw [← hlen, List.take_left]
    have hd : (s.data.map Char.toNat ++ r).drop s.data.length = r := by
      rw [← hlen, List.drop_left]
    rw [ht, hd, List.map_map]
    have hmap : s.data.map (Char.ofNat ∘ Char.toNat) = s.data.map id :=
      List.map_congr_left (fun c _ => charOfNatToNat c)
    rw [hmap, List.map_id]
  · rw [List.length_append, hlen]
    omega

theorem decodeEntries_encodeEntries (es : List (String × String)) :
    decodeEntries es.length (encodeEntries es) = some es := by
  induction es with
  | nil => rfl
  | cons e rest ih =>
    obtain ⟨p, c⟩ := e
    simp only [encodeEntries, List.length_cons, decodeEntries]
    rw [decodeStr_encodeStr]
    simp only [Option.bind_eq_bind, Option.some_bind]
    rw [decodeStr_encodeStr]
    simp only [Option.some_bind]
    rw [ih]
    rfl

theorem zipEntries_foldl (files : List GenFile) (acc : List (String × String)) :
    (files.foldl (fun z f => z.file f.path f.content) (⟨acc⟩ : ZipArchive)).entries
      = acc ++ files.map (fun f => (f.path, f.content)) := by
  induction files generalizing acc with
  | nil => simp
  | cons f rest ih =>
    rw [List.foldl_cons]
    have step : (⟨acc⟩ : ZipArchive).file f.path f.content
        = (⟨acc ++ [(f.path, f.content)]⟩ : ZipArchive) := rfl
    rw [step, ih]
    simp [List.append_assoc]

/-- C4: for every GeneratedFiles value with N entries, the buffer
produced by zipFiles decompresses to exactly N entries whose names are
the given relative paths verbatim and whose contents equal the given
content strings; the archive itself is modelled from the spec since
the compression library is not part of this repository. -/
theorem zipFiles_roundtrip (files : List GenFile) :
    unzipBuffer (zipFiles files) = some (files.map (fun f => (f.path, f.content)))
      ∧ (files.map (fun f => (f.path, f.content))).length = files.length := by
  refine ⟨?_, List.length_map _ _⟩
  simp only [zipFiles, unzipBuffer]
  rw [zipEntries_foldl]
  simp only [List.nil_append]
  exact decodeEntries_encodeEntries _

/-- C9: the generator is referentially transparent; two calls of
buildFilesFromPlan at equal plans and flavors return identical
GeneratedFiles values, identical in file order, paths and contents. -/
theorem buildFilesFromPlan_deterministic (p q : SitePlan) (f g : Framework)
    (hp : p = q) (hf : f = g) :
    buildFilesFromPlan p f = buildFilesFromPlan q g := by
  subst hp
  subst hf
  rfl

/-- A small concrete plan used by witnesses. -/
def wplan : SitePlan :=
⟨⟨"Demo", "A demo site", "en"⟩, ⟨[]⟩,
 [⟨"s1", "hero", [("title", .str "Hi")]⟩],
 ⟨[("primary", "#123456")], none⟩⟩

theorem buildFilesFromPlan_deterministic_witness :
    buildFilesFromPlan wplan Framework.vanilla = buildFilesFromPlan wplan Framework.vanilla :=
  buildFilesFromPlan_deterministic wplan wplan Framework.vanilla Framework.vanilla rfl rfl

/-- C10: the generator never reads the assets of a plan; two plans
that agree on everything but assets.images generate identical
outputs for every flavor. -/
theorem buildFilesFromPlan_ignores_assets (p q : SitePlan) (fw : Framework)
    (hm : p.meta = q.meta) (hs : p.sections = q.sections) (hst : p.style = q.style) :
    buildFilesFromPlan p fw = buildFilesFromPlan q fw := by
  obtain ⟨m1, a1, s1, st1⟩ := p
  obtain ⟨m2, a2, s2, st2⟩ := q
  simp only at hm hs hst
  subst hm
  subst hs
  subst hst
  cases fw <;> rfl

theorem buildFilesFromPlan_ignores_assets_witness :
    buildFilesFromPlan ⟨⟨"Demo", "A demo site", "en"⟩, ⟨[⟨"img1", some "a cat", none⟩]⟩,
        [⟨"s1", "hero", [("title", .str "Hi")]⟩], ⟨[("primary", "#123456")], none⟩⟩
      Framework.next = buildFilesFromPlan wplan Framework.next :=
  buildFilesFromPlan_ignores_assets _ wplan Framework.next rfl rfl rfl

theorem sectionHtml_unknown (s : PlanSection)
    (h1 : s.type ≠ "hero") (h2 : s.type ≠ "features") (h3 : s.type ≠ "contact") :
    sectionHtml s = .ok (fallbackHtml s) ∧ reactSectionJsx s = "" := by
  have b1 : (s.type == "hero") = false := beq_eq_false_iff_ne.mpr h1
  have b2 : (s.type == "features") = false := beq_eq_false_iff_ne.mpr h2
  have b3 : (s.type == "contact") = false := beq_eq_false_iff_ne.mpr h3
  constructor
  · simp [sectionHtml, b1, b2, b3]
  · simp [reactSectionJsx, b1, b2]

theorem sectionsHtml_map_fallback (ss : List PlanSection)
    (h : ∀ s ∈ ss, sectionHtml s = .ok (fallbackHtml s)) :
    sectionsHtml ss = .ok (ss.map fallbackHtml) := by
  induction ss with
  | nil => rfl
  | cons a rest ih =>
    have ha : sectionHtml a = .ok (fallbackHtml a) := h a (List.mem_cons_self a rest)
    have hr : sectionsHtml rest = .ok (rest.map fallbackHtml) :=
      ih (fun s hs => h s (List.mem_cons_of_mem a hs))
    simp only [sectionsHtml, ha, hr]
    rfl

/-- C1 (amended): a section whose type is outside the known set is
rendered by the plain-markup flavor as the generic fallback fragment
holding the JSON-serialized props map, and the whole generation
succeeds; the component-based flavor, however, renders such a section
to the empty string, which the Boolean filter silently drops. -/
theorem unknown_sections_fallback (plan : SitePlan)
    (h : ∀ s ∈ plan.sections, s.type ≠ "hero" ∧ s.type ≠ "features" ∧ s.type ≠ "contact") :
    buildFilesFromPlan plan .vanilla =
      .ok ⟨[⟨"index.html", htmlDocPre plan ++ dirAttr plan.meta.language ++
              htmlDocPost plan (String.intercalate "\n" (plan.sections.map fallbackHtml))⟩,
            ⟨"styles.css", renderCss plan⟩,
            ⟨"main.js", renderJs plan⟩]⟩
      ∧ ∀ s ∈ plan.sections, sectionHtml s = .ok (fallbackHtml s) ∧ reactSectionJsx s = "" := by
  have hsec : ∀ s ∈ plan.sections, sectionHtml s = .ok (fallbackHtml s) ∧ reactSectionJsx s = "" :=
    fun s hs => sectionHtml_unknown s (h s hs).1 (h s hs).2.1 (h s hs).2.2
  refine ⟨?_, hsec⟩
  have hlist : sectionsHtml plan.sections = .ok (plan.sections.map fallbackHtml) :=
    sectionsHtml_map_fallback plan.sections (fun s hs => (hsec s hs).1)
  simp only [buildFilesFromPlan, renderHtml, hlist]
  rfl

theorem unknown_sections_fallback_witness :
    buildFilesFromPlan planDrop .vanilla =
      .ok ⟨[⟨"index.html", htmlDocPre planDrop ++ dirAttr planDrop.meta.language ++
              htmlDocPost planDrop (String.intercalate "\n" (planDrop.sections.map fallbackHtml))⟩,
            ⟨"styles.css", renderCss planDrop⟩,
            ⟨"main.js", renderJs planDrop⟩]⟩
      ∧ ∀ s ∈ planDrop.sections, sectionHtml s = .ok (fallbackHtml s) ∧ reactSectionJsx s = "" :=
  unknown_sections_fallback planDrop (by
    intro s hs
    simp only [planDrop, List.mem_singleton] at hs
    subst hs
    exact ⟨by decide, by decide, by decide⟩)

/-- C1 counterexample: for the component-based flavor the section of
unknown type pricing is dropped: no generated file of that flavor
contains the section type or its serialized props value, so the claim
that every flavor renders the generic fallback fragment is false. -/
theorem unknown_section_dropped_by_react :
    planDrop.sections.map PlanSection.type = ["pricing"]
      ∧ (buildFilesFromPlan planDrop Framework.react).map
          (fun gf => gf.files.map (fun f => hasSub "pricing" f.content))
        = .ok [false, false, false, false, false]
      ∧ (buildFilesFromPlan planDrop Framework.react).map
          (fun gf => gf.files.map (fun f => hasSub "gold" f.content))
        = .ok [false, false, false, false, false] :=
  ⟨rfl, rfl, rfl⟩

theorem featureItemsHtml_ok (items : List JVal) (h : items.all itemSafe = true) :
    ∃ out, featureItemsHtml items = .ok out := by
  induction items with
  | nil => exact ⟨"", rfl⟩
  | cons it rest ih =>
    rw [List.all_cons, Bool.and_eq_true] at h
    obtain ⟨out, hout⟩ := ih h.2
    have hitem : ∃ s, featureItemHtml it = .ok s := by
      cases it with
      | null => simp [itemSafe] at h
      | undefined => simp [itemSafe] at h
      | bool b => exact ⟨_, rfl⟩
      | num n => exact ⟨_, rfl⟩
      | str s => exact ⟨_, rfl⟩
      | arr xs => exact ⟨_, rfl⟩
      | obj fs => exact ⟨_, rfl⟩
    obtain ⟨s, hs⟩ := hitem
    refine ⟨s ++ out, ?_⟩
    simp only [featureItemsHtml, hs, hout]
    rfl

theorem sectionHtml_ok_of_safe (s : PlanSection) (h : sectionSafe s = true) :
    ∃ out, sectionHtml s = .ok out := by
  by_cases h1 : s.type = "hero"
  · have b1 : (s.type == "hero") = true := beq_iff_eq.mpr h1
    exact ⟨heroHtml s, by simp [sectionHtml, b1]⟩
  · have b1 : (s.type == "hero") = false := beq_eq_false_iff_ne.mpr h1
    by_cases h2 : s.type = "features"
    · have b2 : (s.type == "features") = true := beq_iff_eq.mpr h2
      unfold sectionSafe at h
      rw [b2] at h
      simp only [if_true] at h
      rcases hm : jor (propGet s.props "items") (JVal.arr []) with _ | _ | b | n | st | items | fs
        <;> rw [hm] at h
      · simp at h
      · simp at h
      · simp at h
      · simp at h
      · simp at h
      · obtain ⟨inner, hin⟩ := featureItemsHtml_ok items h
        have hres : sectionHtml s = .ok ("\n    <section id=\"" ++ s.id
            ++ "\" class=\"features\">\n      <h2>"
            ++ (jor (propGet s.props "title") (JVal.str "Features")).toDisplay
            ++ "</h2>\n      <div class=\"features-grid\">\n        "
            ++ inner ++ "\n      </div>\n    </section>") := by
          simp only [sectionHtml, b1, b2, Bool.false_eq_true, if_false, if_true]
          rw [hm]
          simp only [hin]
          rfl
        exact ⟨_, hres⟩
      · simp at h
    · have b2 : (s.type == "features") = false := beq_eq_false_iff_ne.mpr h2
      by_cases h3 : s.type = "contact"
      · have b3 : (s.type == "contact") = true := beq_iff_eq.mpr h3
        exact ⟨contactHtml s, by simp [sectionHtml, b1, b2, b3]⟩
      · have b3 : (s.type == "contact") = false := beq_eq_false_iff_ne.mpr h3
        exact ⟨fallbackHtml s, by simp [sectionHtml, b1, b2, b3]⟩

theorem sectionsHtml_ok_of_safe (ss : List PlanSection) (h : ss.all sectionSafe = true) :
    ∃ outs, sectionsHtml ss = .ok outs := by
  induction ss with
  | nil => exact ⟨[], rfl⟩
  | cons a rest ih =>
    rw [List.all_cons, Bool.and_eq_true] at h
    obtain ⟨o, ho⟩ := sectionHtml_ok_of_safe a h.1
    obtain ⟨os, hos⟩ := ih h.2
    refine ⟨o :: os, ?_⟩
    simp only [sectionsHtml, ho, hos]
    rfl

theorem renderHtml_ok_of_safe (plan : SitePlan) (h : plan.sections.all sectionSafe = true) :
    ∃ html, renderHtml plan = .ok html := by
  obtain ⟨outs, houts⟩ := sectionsHtml_ok_of_safe plan.sections h
  refine ⟨htmlDocPre plan ++ dirAttr plan.meta.language
    ++ htmlDocPost plan (String.intercalate "\n" outs), ?_⟩
  simp only [renderHtml, houts]
  rfl

/-- C2 (amended): the generator is total and never throws on every
structurally valid plan whose features sections carry an items value
that is absent, falsy, or an array free of null and undefined entries;
absent optional fields receive the documented defaults, in particular
a hero section with no props renders the title Welcome and a features
section with no props renders an empty grid. Without that proviso the
claim is false: a truthy non-array items value raises a TypeError. -/
theorem generate_total_with_defaults (plan : SitePlan) (fw : Framework)
    (h : plan.sections.all sectionSafe = true) :
    (∃ gf, buildFilesFromPlan plan fw = .ok gf)
    ∧ (∀ sid, sectionHtml ⟨sid, "hero", []⟩ =
        .ok ("\n    <section id=\"" ++ sid ++ "\" class=\"hero\">\n      <h1>" ++ "Welcome"
          ++ "</h1>\n      <p>" ++ "" ++ "</p>\n      " ++ "" ++ "\n    </section>"))
    ∧ (∀ sid, sectionHtml ⟨sid, "features", []⟩ =
        .ok ("\n    <section id=\"" ++ sid ++ "\" class=\"features\">\n      <h2>" ++ "Features"
          ++ "</h2>\n      <div class=\"features-grid\">\n        " ++ ""
          ++ "\n      </div>\n    </section>")) := by
  refine ⟨?_, fun sid => rfl, fun sid => rfl⟩
  cases fw with
  | vanilla =>
    obtain ⟨html, hh⟩ := renderHtml_ok_of_safe plan h
    refine ⟨⟨[⟨"index.html", html⟩, ⟨"styles.css", renderCss plan⟩,
      ⟨"main.js", renderJs plan⟩]⟩, ?_⟩
    simp only [buildFilesFromPlan, hh]
    rfl
  | react => exact ⟨_, rfl⟩
  | next => exact ⟨_, rfl⟩

theorem generate_total_with_defaults_witness :
    (∃ gf, buildFilesFromPlan wplan Framework.vanilla = .ok gf)
    ∧ (∀ sid, sectionHtml ⟨sid, "hero", []⟩ =
        .ok ("\n    <section id=\"" ++ sid ++ "\" class=\"hero\">\n      <h1>" ++ "Welcome"
          ++ "</h1>\n      <p>" ++ "" ++ "</p>\n      " ++ "" ++ "\n    </section>"))
    ∧ (∀ sid, sectionHtml ⟨sid, "features", []⟩ =
        .ok ("\n    <section id=\"" ++ sid ++ "\" class=\"features\">\n      <h2>" ++ "Features"
          ++ "</h2>\n      <div class=\"features-grid\">\n        " ++ ""
          ++ "\n      </div>\n    </section>")) :=
  generate_total_with_defaults wplan Framework.vanilla (by decide)

/-- C2 counterexample: on the structurally valid plan whose features
section carries items equal to 5, the plain-markup generation raises
a TypeError instead of returning a GeneratedFiles value, so the
totality claim as stated is false. -/
theorem generate_throws_on_truthy_nonarray_items :
    buildFilesFromPlan planBadItems Framework.vanilla
      = .error "TypeError: (section.props.items or-else []).map is not a function" := by
  rfl

/-- C3 (amended): for every flavor the generator emits exactly the
fixed ordered file path set of that flavor, with documented default
color literals substituted when the colors map is empty, provided for
the plain-markup flavor that the plan's features sections carry safe
items values; without that proviso the vanilla generation can raise a
TypeError and then emits no file at all. -/
theorem generate_fixed_file_set (plan : SitePlan) (fw : Framework)
    (h : fw = Framework.vanilla → plan.sections.all sectionSafe = true) :
    (∃ gf, buildFilesFromPlan plan fw = .ok gf ∧ gf.files.map GenFile.path = flavorPaths fw)
    ∧ (plan.style.colors = [] → plan.style.font = none → renderCss plan =
        "* \x7b\n  margin: 0;\n  padding: 0;\n  box-sizing: border-box;\n\x7d\n\nbody \x7b\n  font-family: system-ui, -apple-system, sans-serif;\n  color: #333;\n  background: #fff;\n  line-height: 1.6;\n\x7d\n\nmain \x7b\n  max-width: 1200px;\n  margin: 0 auto;\n  padding: 20px;\n\x7d\n\nsection \x7b\n  margin: 40px 0;\n  padding: 20px;\n\x7d\n\n.hero \x7b\n  text-align: center;\n  padding: 60px 20px;\n  background: #007bff;\n  color: white;\n  border-radius: 8px;\n\x7d\n\n.hero h1 \x7b\n  font-size: 2.5em;\n  margin-bottom: 20px;\n\x7d\n\n.cta-button \x7b\n  background: white;\n  color: #007bff;\n  padding: 12px 30px;\n  border: none;\n  border-radius: 5px;\n  font-size: 1.1em;\n  cursor: pointer;\n  margin-top: 20px;\n\x7d\n\n.features-grid \x7b\n  display: grid;\n  grid-template-columns: repeat(auto-fit, minmax(250px, 1fr));\n  gap: 30px;\n  margin-top: 30px;\n\x7d\n\n.feature-item \x7b\n  padding: 20px;\n  background: #f8f9fa;\n  border-radius: 8px;\n\x7d\n\n.contact \x7b\n  background: #f8f9fa;\n  padding: 40px;\n  border-radius: 8px;\n\x7d") := by
  constructor
  · cases fw with
    | vanilla =>
      obtain ⟨html, hh⟩ := renderHtml_ok_of_safe plan (h rfl)
      refine ⟨⟨[⟨"index.html", html⟩, ⟨"styles.css", renderCss plan⟩,
        ⟨"main.js", renderJs plan⟩]⟩, ?_, rfl⟩
      simp only [buildFilesFromPlan, hh]
      rfl
    | react => exact ⟨_, rfl, rfl⟩
    | next => exact ⟨_, rfl, rfl⟩
  · intro hc hf
    simp only [renderCss, hc, hf]
    rfl

theorem generate_fixed_file_set_witness :
    (∃ gf, buildFilesFromPlan planDrop Framework.vanilla = .ok gf
      ∧ gf.files.map GenFile.path = flavorPaths Framework.vanilla)
    ∧ (planDrop.style.colors = [] → planDrop.style.font = none → renderCss planDrop =
        "* \x7b\n  margin: 0;\n  padding: 0;\n  box-sizing: border-box;\n\x7d\n\nbody \x7b\n  font-family: system-ui, -apple-system, sans-serif;\n  color: #333;\n  background: #fff;\n  line-height: 1.6;\n\x7d\n\nmain \x7b\n  max-width: 1200px;\n  margin: 0 auto;\n  padding: 20px;\n\x7d\n\nsection \x7b\n  margin: 40px 0;\n  padding: 20px;\n\x7d\n\n.hero \x7b\n  text-align: center;\n  padding: 60px 20px;\n  background: #007bff;\n  color: white;\n  border-radius: 8px;\n\x7d\n\n.hero h1 \x7b\n  font-size: 2.5em;\n  margin-bottom: 20px;\n\x7d\n\n.cta-button \x7b\n  background: white;\n  color: #007bff;\n  padding: 12px 30px;\n  border: none;\n  border-radius: 5px;\n  font-size: 1.1em;\n  cursor: pointer;\n  margin-top: 20px;\n\x7d\n\n.features-grid \x7b\n  display: grid;\n  grid-template-columns: repeat(auto-fit, minmax(250px, 1fr));\n  gap: 30px;\n  margin-top: 30px;\n\x7d\n\n.feature-item \x7b\n  padding: 20px;\n  background: #f8f9fa;\n  border-radius: 8px;\n\x7d\n\n.contact \x7b\n  background: #f8f9fa;\n  padding: 40px;\n  border-radius: 8px;\n\x7d") :=
  generate_fixed_file_set planDrop Framework.vanilla (fun _ => by decide)

/-- C3 counterexample: on the structurally valid plan whose features
section carries the truthy non-array items string x and whose colors
map is empty, the plain-markup generation raises a TypeError, so no
file of the flavor's fixed set is emitted and the claim as stated is
false. -/
theorem generate_omits_all_files_on_typeerror :
    planBadItems2.style.colors = []
    ∧ (buildFilesFromPlan planBadItems2 Framework.vanilla).map
        (fun gf => gf.files.map GenFile.path)
      = .error "TypeError: (section.props.items or-else []).map is not a function" :=
  ⟨rfl, rfl⟩

/-- C5: the generate handler maps every schema validation failure to a
400 response carrying the full issue list, maps every AI-client or
generator failure to a 500 response carrying the raised message, and
never returns a partial result: a success response holds both plan and
files obtained from a fully successful pipeline. -/
theorem handler_maps_errors :
    (∀ raw ai issues, parseBuildRequest raw = .error issues →
        handlePOST (.ok raw) ai = .badRequest issues)
    ∧ (∀ raw ai br msg, parseBuildRequest raw = .ok br → ai br = .error msg →
        handlePOST (.ok raw) ai = .serverError msg)
    ∧ (∀ raw ai br plan msg, parseBuildRequest raw = .ok br → ai br = .ok plan →
        buildFilesFromPlan plan br.framework = .error msg →
        handlePOST (.ok raw) ai = .serverError msg)
    ∧ (∀ body ai plan files, handlePOST body ai = .ok plan files →
        ∃ raw br, body = .ok raw ∧ parseBuildRequest raw = .ok br ∧ ai br = .ok plan
          ∧ buildFilesFromPlan plan br.framework = .ok files) := by
  refine ⟨?_, ?_, ?_, ?_⟩
  · intro raw ai issues h
    simp only [handlePOST, h]
  · intro raw ai br msg h1 h2
    simp only [handlePOST, h1, h2]
  · intro raw ai br plan msg h1 h2 h3
    simp only [handlePOST, h1, h2, h3]
  · intro body ai plan files h
    cases body with
    | error e =>
      simp only [handlePOST] at h
      simp at h
    | ok raw =>
      cases hp : parseBuildRequest raw with
      | error issues =>
        have hc : handlePOST (.ok raw) ai = .badRequest issues := by
          simp only [handlePOST, hp]
        rw [h] at hc
        simp at hc
      | ok br =>
        cases hai : ai br with
        | error m =>
          have hc : handlePOST (.ok raw) ai = .serverError m := by
            simp only [handlePOST, hp, hai]
          rw [h] at hc
          simp at hc
        | ok p =>
          cases hb : buildFilesFromPlan p br.framework with
          | error m =>
            have hc : handlePOST (.ok raw) ai = .serverError m := by
              simp only [handlePOST, hp, hai, hb]
            rw [h] at hc
            simp at hc
          | ok f =>
            have hc : handlePOST (.ok raw) ai = .ok p f := by
              simp only [handlePOST, hp, hai, hb]
            rw [h] at hc
            injection hc with h1 h2
            subst h1
            subst h2
            exact ⟨raw, br, rfl, hp, hai, hb⟩

theorem handler_maps_errors_witness :
    handlePOST (.ok (.obj [])) (fun _ => .error "Failed to generate site plan")
      = .badRequest [⟨["intent"], "invalid_type", "Required"⟩,
          ⟨["framework"], "invalid_type", "Required"⟩,
          ⟨["theme"], "invalid_type", "Required"⟩,
          ⟨["sections"], "invalid_type", "Required"⟩,
          ⟨["language"], "invalid_type", "Required"⟩]
    ∧ handlePOST (.ok reqGoodJson) (fun _ => .error "Failed to generate site plan")
      = .serverError "Failed to generate site plan" :=
  ⟨handler_maps_errors.1 (.obj []) _ _ rfl,
   handler_maps_errors.2.1 reqGoodJson _ reqGood "Failed to generate site plan" rfl rfl⟩

/-- C7: every raw request body whose sections value is the empty array
is rejected by the schema with an issue naming the sections field, the
handler answers 400 with those issues, and the response is the same
whatever the AI client would have returned, so the AI client is never
consulted. -/
theorem empty_sections_rejected (fs : List (String × JVal))
    (h : propGet fs "sections" = .arr []) :
    ∃ issues, parseBuildRequest (.obj fs) = .error issues
      ∧ (⟨["sections"], "too_small", "Array must contain at least 1 element(s)"⟩ : ZIssue) ∈ issues
      ∧ (∀ ai, handlePOST (.ok (.obj fs)) ai = .badRequest issues) := by
  have key : ∃ issues, parseBuildRequest (.obj fs) = .error issues
      ∧ (⟨["sections"], "too_small", "Array must contain at least 1 element(s)"⟩ : ZIssue) ∈ issues := by
    have hs : parseSections (propGet fs "sections")
        = .error [⟨["sections"], "too_small", "Array must contain at least 1 element(s)"⟩] := by
      rw [h]
      rfl
    simp only [parseBuildRequest]
    rw [hs]
    rcases parseIntent (propGet fs "intent") with ei | vi <;>
    rcases parseFramework (propGet fs "framework") with ef | vf <;>
    rcases parseTheme (propGet fs "theme") with et | vt <;>
    rcases parseLanguage (propGet fs "language") with el | vl <;>
    rcases parseBrand (propGet fs "brand") with eb | vb <;>
    exact ⟨_, rfl, by simp [errsOf]⟩
  obtain ⟨issues, hp, hm⟩ := key
  exact ⟨issues, hp, hm, fun ai => by simp only [handlePOST, hp]⟩

theorem empty_sections_rejected_witness :
    ∃ issues, parseBuildRequest (.obj [("sections", .arr [])]) = .error issues
      ∧ (⟨["sections"], "too_small", "Array must contain at least 1 element(s)"⟩ : ZIssue) ∈ issues
      ∧ (∀ ai, handlePOST (.ok (.obj [("sections", .arr [])])) ai = .badRequest issues) :=
  empty_sections_rejected [("sections", .arr [])] rfl

theorem parseIntent_rt (s : String) (h3 : 3 ≤ s.length) (h2k : s.length ≤ 2000) :
    parseIntent (.str s) = .ok s := by
  simp only [parseIntent]
  rw [if_neg (by omega), if_neg (by omega)]

theorem parseFramework_rt (f : Framework) : parseFramework (.str (frameworkStr f)) = .ok f := by
  cases f <;> rfl

theorem parseLanguage_rt (l : Lang) : parseLanguage (.str (langStr l)) = .ok l := by
  cases l <;> rfl

theorem parseTheme_rt (t : Theme) : parseTheme (themeJson t) = .ok t := by
  obtain ⟨p, s, f, d⟩ := t
  cases s <;> cases f <;> cases d <;> rfl

theorem parseBrand_rt (b : Brand) : parseBrand (brandJson b) = .ok (some b) := by
  obtain ⟨n, t⟩ := b
  rcases n with _ | ns <;> rcases t with _ | tt
  · rfl
  · cases tt <;> rfl
  · rfl
  · cases tt <;> rfl

theorem parseSectionList_rt (ks : List SectionKind) (i : Nat) :
    parseSectionList i (ks.map (fun k => .str (sectionKindStr k))) = .ok ks := by
  induction ks generalizing i with
  | nil => rfl
  | cons k rest ih =>
    have hk : parseSectionKind i (.str (sectionKindStr k)) = .ok k := by
      cases k <;> rfl
    simp only [List.map_cons, parseSectionList, hk, ih, zPair]

theorem parseSections_rt (ks : List SectionKind) (hne : ks ≠ []) :
    parseSections (.arr (ks.map (fun k => .str (sectionKindStr k)))) = .ok ks := by
  have hlen : ¬ ((ks.map (fun k => JVal.str (sectionKindStr k))).length < 1) := by
    cases ks with
    | nil => exact absurd rfl hne
    | cons a r => simp
  simp only [parseSections]
  rw [if_neg hlen, parseSectionList_rt]

/-- C8: validation round-trips on valid input: parsing the canonical
JSON form of any build request that satisfies the length bounds and
the non-empty sections constraint returns exactly that value, with no
field coerced. -/
theorem validate_roundtrip (r : BuildRequest)
    (h3 : 3 ≤ r.intent.length) (h2k : r.intent.length ≤ 2000) (hne : r.sections ≠ []) :
    parseBuildRequest (buildRequestJson r) = .ok r := by
  obtain ⟨i, fw, th, ks, lg, br⟩ := r
  simp only [BuildRequest.intent] at h3 h2k
  simp only [BuildRequest.sections] at hne
  cases br with
  | none =>
    have hshape : parseBuildRequest (buildRequestJson ⟨i, fw, th, ks, lg, none⟩)
        = (match parseIntent (.str i), parseFramework (.str (frameworkStr fw)),
             parseTheme (themeJson th),
             parseSections (.arr (ks.map (fun k => .str (sectionKindStr k)))),
             parseLanguage (.str (langStr lg)), parseBrand .undefined with
           | .ok a, .ok b, .ok c, .ok d, .ok e, .ok f =>
             .ok (⟨a, b, c, d, e, f⟩ : BuildRequest)
           | ri, rf, rt, rs, rl, rb =>
             .error (errsOf ri ++ errsOf rf ++ errsOf rt ++ errsOf rs ++ errsOf rl ++ errsOf rb)) := rfl
    rw [hshape, parseIntent_rt i h3 h2k, parseFramework_rt, parseTheme_rt,
      parseSections_rt ks hne, parseLanguage_rt]
    rfl
  | some b =>
    have hshape : parseBuildRequest (buildRequestJson ⟨i, fw, th, ks, lg, some b⟩)
        = (match parseIntent (.str i), parseFramework (.str (frameworkStr fw)),
             parseTheme (themeJson th),
             parseSections (.arr (ks.map (fun k => .str (sectionKindStr k)))),
             parseLanguage (.str (langStr lg)), parseBrand (brandJson b) with
           | .ok a, .ok b2, .ok c, .ok d, .ok e, .ok f =>
             .ok (⟨a, b2, c, d, e, f⟩ : BuildRequest)
           | ri, rf, rt, rs, rl, rb =>
             .error (errsOf ri ++ errsOf rf ++ errsOf rt ++ errsOf rs ++ errsOf rl ++ errsOf rb)) := rfl
    rw [hshape, parseIntent_rt i h3 h2k, parseFramework_rt, parseTheme_rt,
      parseSections_rt ks hne, parseLanguage_rt, parseBrand_rt]

theorem validate_roundtrip_witness :
    parseBuildRequest (buildRequestJson reqGood) = .ok reqGood :=
  validate_roundtrip reqGood (by decide) (by decide) (by decide)

/-- C6 (amended): the dir attribute slot equals the rtl attribute
exactly when the plan language is the Persian tag fa, and is empty
otherwise; the plain-markup document and the full-framework layout
embed exactly that slot, while the component-based public/index.html
has no dir slot at all: none of its fixed template parts contains a
dir attribute, so that flavor never sets a text direction even for
Persian. -/
theorem rtl_direction_rule (plan : SitePlan) :
    (dirAttr plan.meta.language = "dir=\"rtl\"" ↔ plan.meta.language = "fa")
    ∧ (dirAttr plan.meta.language = "" ↔ plan.meta.language ≠ "fa")
    ∧ baseLayout plan = layoutPre plan ++ dirAttr plan.meta.language ++ layoutPost
    ∧ (∀ out, sectionsHtml plan.sections = .ok out →
        renderHtml plan = .ok (htmlDocPre plan ++ dirAttr plan.meta.language
          ++ htmlDocPost plan (String.intercalate "\n" out)))
    ∧ reactIndexHtml plan
        = reactIndexPre ++ plan.meta.language ++ reactIndexMid ++ plan.meta.title ++ reactIndexPost
    ∧ hasSub "dir=" reactIndexPre = false
    ∧ hasSub "dir=" reactIndexMid = false
    ∧ hasSub "dir=" reactIndexPost = false := by
  have hrender : ∀ out, sectionsHtml plan.sections = .ok out →
      renderHtml plan = .ok (htmlDocPre plan ++ dirAttr plan.meta.language
        ++ htmlDocPost plan (String.intercalate "\n" out)) := by
    intro out hout
    simp only [renderHtml, hout]
    rfl
  by_cases hl : plan.meta.language = "fa"
  · have b : (plan.meta.language == "fa") = true := beq_iff_eq.mpr hl
    refine ⟨?_, ?_, rfl, hrender, rfl, by decide, by decide, by decide⟩
    · simp [dirAttr, b, hl]
    · simp [dirAttr, b, hl]
  · have b : (plan.meta.language == "fa") = false := beq_eq_false_iff_ne.mpr hl
    refine ⟨?_, ?_, rfl, hrender, rfl, by decide, by decide, by decide⟩
    · simp [dirAttr, b, hl]
    · simp [dirAttr, b, hl]

theorem rtl_direction_rule_witness :
    (dirAttr planFa.meta.language = "dir=\"rtl\"" ↔ planFa.meta.language = "fa")
    ∧ (dirAttr planFa.meta.language = "" ↔ planFa.meta.language ≠ "fa")
    ∧ baseLayout planFa = layoutPre planFa ++ dirAttr planFa.meta.language ++ layoutPost
    ∧ (∀ out, sectionsHtml planFa.sections = .ok out →
        renderHtml planFa = .ok (htmlDocPre planFa ++ dirAttr planFa.meta.language
          ++ htmlDocPost planFa (String.intercalate "\n" out)))
    ∧ reactIndexHtml planFa
        = reactIndexPre ++ planFa.meta.language ++ reactIndexMid ++ planFa.meta.title ++ reactIndexPost
    ∧ hasSub "dir=" reactIndexPre = false
    ∧ hasSub "dir=" reactIndexMid = false
    ∧ hasSub "dir=" reactIndexPost = false :=
  rtl_direction_rule planFa

/-- C6 counterexample: for a plan in the Persian locale the
component-based flavor's public/index.html contains no dir attribute
at all, refuting the claim that every HTML file of every flavor sets
right-to-left direction for the Persian locale. -/
theorem react_index_no_rtl_for_fa :
    planFa.meta.language = "fa"
    ∧ buildFilesFromPlan planFa Framework.react
        = .ok ⟨[⟨"package.json", basicPkgJson "react"⟩,
                ⟨"src/App.jsx", renderReactApp planFa⟩,
                ⟨"src/main.jsx", reactMainJsx⟩,
                ⟨"public/index.html", reactIndexHtml planFa⟩,
                ⟨"src/App.css", renderCss planFa⟩]⟩
    ∧ hasSub "dir=" (reactIndexHtml planFa) = false :=
  ⟨rfl, rfl, by decide⟩
